import Mathlib

/-!
Verification of the gograph query-construction and object-mapping subsystem.

This file gives a shallow embedding of the Cypher query builders
(`query/cypher/utils.go`, `VertexQueryBuilder`, `EdgeQueryBuilder`), the
generic store's edge-persistence validation (`omg` package) and the
reflection-based struct mapper (`omg/mapper.go`), together with theorems
settling the specification claims about them.

Go maps are modelled as association lists whose iteration order is the
insertion order; Go map assignment replaces the binding of an existing key
in place and otherwise appends.  Go runtime panics (out-of-range string
slices, method calls through nil interfaces) are modelled as an explicit
`crash` outcome, kept distinct from the `error` values the functions
return.
-/

namespace GoGraph

/-- A dynamically typed Go value as it occurs in property maps
(`interface\x7b\x7d` values restricted to the scalar kinds the repository
exercises: strings, integers and booleans). -/
inductive GoValue where
  | str (s : String)
  | int (n : Int)
  | bool (b : Bool)
deriving DecidableEq, Repr

/-- Rendering of a `GoValue` by Go's default `%v` verb. -/
def goToString : GoValue → String
  | GoValue.str s => s
  | GoValue.int n => toString n
  | GoValue.bool b => if b then "true" else "false"

/-- `core.KVMap`: a Go `map[string]interface\x7b\x7d`, modelled as an
association list in insertion order. -/
def KVMap := List (String × GoValue)
deriving DecidableEq

/-- Go map assignment `m[k] = v`: replace the binding of `k` in place when
present, otherwise append the new binding. -/
def goMapAssign {α : Type} : List (String × α) → String → α → List (String × α)
  | [], k, v => [(k, v)]
  | (k', v') :: t, k, v => if k' = k then (k, v) :: t else (k', v') :: goMapAssign t k v

/-- Go map read `m[k]` returning `none` for a missing key. -/
def goMapGet? {α : Type} : List (String × α) → String → Option α
  | [], _ => none
  | (k', v') :: t, k => if k' = k then some v' else goMapGet? t k

/-- Building a Go map from a list of key/value pairs by repeated
assignment (map literals and insertion loops). -/
def goMapOfList {α : Type} (l : List (String × α)) : List (String × α) :=
  l.foldl (fun m p => goMapAssign m p.1 p.2) []

/-- Concatenation of a list of strings. -/
def strConcat : List String → String
  | [] => ""
  | s :: t => s ++ strConcat t

/-- Join a list of strings with a separator between consecutive elements. -/
def sepJoin (sep : String) : List String → String
  | [] => ""
  | s :: t => s ++ strConcat (t.map fun u => sep ++ u)

/-- Go `strings.ToLower`, modelled character-wise (exact on the ASCII
labels the repository uses). -/
def strLower (s : String) : String := ⟨s.data.map Char.toLower⟩

/-- Go `strings.ToUpper`, modelled character-wise. -/
def strUpper (s : String) : String := ⟨s.data.map Char.toUpper⟩

/-- Go string slice `s[0:n]`, modelled character-wise. -/
def strTake (s : String) (n : Nat) : String := ⟨s.data.take n⟩

/-- Go `len(s)`, modelled character-wise. -/
def strLen (s : String) : Nat := s.data.length

/-!  ## `query/cypher/utils.go`  -/

/-- The body of the `switch` inside `buildSelector`'s loop: a string value
is rendered as `key:'value'`, any other value as `key: value` through the
`%v` verb. -/
def renderSelectorPair (p : String × GoValue) : String :=
  match p.2 with
  | GoValue.str s => p.1 ++ ":'" ++ s ++ "'"
  | v => p.1 ++ ": " ++ goToString v

/-- One iteration of `buildSelector`'s loop: a comma before every entry
but the first (`firstFilterProcessed`), then the rendered pair. -/
def selStep (acc : String × Bool) (p : String × GoValue) : String × Bool :=
  ((if acc.2 then acc.1 ++ "," else acc.1) ++ renderSelectorPair p, true)

/-- `buildSelector` from `query/cypher/utils.go`: renders a property map as
an inline brace-delimited selector. -/
def buildSelector (selector : KVMap) : String :=
  if (selector : List (String × GoValue)).length = 0 then ""
  else
    let out := (selector : List (String × GoValue)).foldl selStep ("\x7b", false)
    out.1 ++ "\x7d"

/-- The body of the `switch` inside `buildFilterConditions`'s loop: one
`variable.key=value` conjunct, single-quoting string values. -/
def renderFilterPair (varName : String) (p : String × GoValue) : String :=
  match p.2 with
  | GoValue.str s => varName ++ "." ++ p.1 ++ "='" ++ s ++ "'"
  | v => varName ++ "." ++ p.1 ++ "=" ++ goToString v

/-- One iteration of `buildFilterConditions`'s loop: an `AND` separator
before every conjunct but the first, then the rendered conjunct. -/
def filterStep (varName : String) (acc : String × Bool) (p : String × GoValue) :
    String × Bool :=
  ((if acc.2 then acc.1 ++ " AND " else acc.1) ++ renderFilterPair varName p, true)

/-- `buildFilterConditions` from `query/cypher/utils.go`: renders
`variable.key=value` conjuncts joined by `AND`. -/
def buildFilterConditions (varName : String) (filters : KVMap) : String :=
  if (filters : List (String × GoValue)).length = 0 then ""
  else
    ((filters : List (String × GoValue)).foldl (filterStep varName) ("", false)).1

/-- One iteration of `buildMultiFilters`'s loop: an empty per-variable map
is skipped, the first rendered group is preceded by ` WHERE `, later ones
by ` AND `. -/
def mfStep (acc : String × Bool) (p : String × KVMap) : String × Bool :=
  if (p.2 : List (String × GoValue)).length = 0 then acc
  else
    let buf := if acc.2 = false then acc.1 ++ " WHERE " else acc.1
    let buf := if acc.2 then buf ++ " AND " else buf
    (buf ++ buildFilterConditions p.1 p.2, true)

/-- `buildMultiFilters` from `query/cypher/utils.go`: renders the combined
`WHERE` predicate over several bound variables, skipping empty filter
maps. -/
def buildMultiFilters (multiFilters : List (String × KVMap)) : String :=
  if multiFilters.length = 0 then ""
  else (multiFilters.foldl mfStep ("", false)).1

/-!  ## Query modes and build outcomes  -/

/-- `core.QueryMode` (`Read`, `Write`). -/
inductive QueryMode where
  | read
  | write
deriving DecidableEq, Repr

/-- Modelled from the spec: `core.WriteMode`, whose declaration is not
among the provided source files (only its uses `core.Merge` and
`core.Create` in the vertex builder are); the spec describes the write
sub-mode as "merge vs create", defaulting to merge. -/
inductive WriteMode where
  | merge
  | create
deriving DecidableEq, Repr

/-- `core.EdgeFetchMode` (`EdgeWithVertexIds`, `EdgeWithCompleteVertex`). -/
inductive EdgeFetchMode where
  | edgeWithVertexIds
  | edgeWithCompleteVertex
deriving DecidableEq, Repr

/-- Outcome of a builder's `Build`: the returned query string, the Go
`("", error)` return, or a runtime panic (out-of-range string slice). -/
inductive BuildResult where
  | ok (query : String)
  | err (msg : String)
  | crash
deriving DecidableEq, Repr

/-!  ## `VertexQueryBuilder`  -/

/-- The state of a `VertexQueryBuilder`; defaults are the Go zero values
with `NewVertexQueryBuilder`'s explicit `writeMode: core.Merge`. -/
structure VertexQueryBuilder where
  queryMode : QueryMode := QueryMode.read
  labels : List String := []
  varName : String := ""
  selector : KVMap := []
  filters : KVMap := []
  writeMode : WriteMode := WriteMode.merge

/-- `NewVertexQueryBuilder`. -/
def newVertexQueryBuilder : VertexQueryBuilder := {}

/-- `VertexQueryBuilder.SetQueryMode`. -/
def VertexQueryBuilder.setQueryMode (b : VertexQueryBuilder) (mode : QueryMode) :
    VertexQueryBuilder := { b with queryMode := mode }

/-- `VertexQueryBuilder.SetLabel`. -/
def VertexQueryBuilder.setLabel (b : VertexQueryBuilder) (labels : List String) :
    VertexQueryBuilder := { b with labels := labels }

/-- `VertexQueryBuilder.SetVarName`. -/
def VertexQueryBuilder.setVarName (b : VertexQueryBuilder) (varName : String) :
    VertexQueryBuilder := { b with varName := varName }

/-- `VertexQueryBuilder.SetSelector`: copies the entries into the
accumulated selector map. -/
def VertexQueryBuilder.setSelector (b : VertexQueryBuilder) (selectors : KVMap) :
    VertexQueryBuilder :=
  { b with selector :=
      (selectors : List (String × GoValue)).foldl (fun m p => goMapAssign m p.1 p.2) b.selector }

/-- `VertexQueryBuilder.SetFilters`: copies the entries into the
accumulated filter map. -/
def VertexQueryBuilder.setFilters (b : VertexQueryBuilder) (filters : KVMap) :
    VertexQueryBuilder :=
  { b with filters :=
      (filters : List (String × GoValue)).foldl (fun m p => goMapAssign m p.1 p.2) b.filters }

/-- `VertexQueryBuilder.SetWriteMode`. -/
def VertexQueryBuilder.setWriteMode (b : VertexQueryBuilder) (writeMode : WriteMode) :
    VertexQueryBuilder := { b with writeMode := writeMode }

/-- `VertexQueryBuilder.validate`: at least one label is required. -/
def VertexQueryBuilder.validate (b : VertexQueryBuilder) : Option String :=
  if b.labels.length = 0 then some "no vertex labels specified in the query" else none

/-- `VertexQueryBuilder.Build`.  The derived variable name
`strings.ToLower(vqb.labels[0])[0:2]` is computed before the explicit
`varName` override, so a too-short first label crashes regardless of the
override. -/
def VertexQueryBuilder.build (b : VertexQueryBuilder) : BuildResult :=
  match b.validate with
  | some msg => BuildResult.err msg
  | none =>
    let operation :=
      if b.queryMode = QueryMode.write then
        if b.writeMode = WriteMode.create then "CREATE" else "MERGE"
      else "MATCH"
    match b.labels with
    | [] => BuildResult.crash
    | l0 :: _ =>
      let lowered := strLower l0
      if strLen lowered < 2 then BuildResult.crash
      else
        let variableName := if b.varName ≠ "" then b.varName else strTake lowered 2
        let selectors := buildSelector b.selector
        let filters := buildMultiFilters (goMapOfList [(variableName, b.filters)])
        let labelSelectors := strConcat (b.labels.map fun label => ":" ++ label)
        BuildResult.ok (operation ++
          (" (" ++ variableName ++ labelSelectors ++ selectors ++ ") " ++
            filters ++ " return " ++ variableName))

/-!  ## `EdgeQueryBuilder`  -/

/-- The state of an `EdgeQueryBuilder`; defaults are the Go zero values
produced by `NewEdgeQueryBuilder`. -/
structure EdgeQueryBuilder where
  queryMode : QueryMode := QueryMode.read
  edgeFetchMode : EdgeFetchMode := EdgeFetchMode.edgeWithVertexIds
  startVertexLabels : List String := []
  startVertexVarName : String := ""
  endVertexLabels : List String := []
  endVertexVarName : String := ""
  labels : List String := []
  varName : String := ""
  startVertexSelector : KVMap := []
  endVertexSelector : KVMap := []
  selector : KVMap := []
  filters : KVMap := []
  startVertexFilters : KVMap := []
  endVertexFilters : KVMap := []

/-- `EdgeQueryBuilder.validate`: exactly one edge label, and each endpoint
needs a label or an explicit variable name. -/
def EdgeQueryBuilder.validate (b : EdgeQueryBuilder) : Option String :=
  if b.labels.length = 0 then some "no edge labels specified in the query"
  else if b.labels.length > 1 then some "multiple edge labels cannot be specified"
  else if b.startVertexLabels.length = 0 ∧ b.startVertexVarName = "" then
    some "either start vertex label or start vertex variable name must be specified"
  else if b.endVertexLabels.length = 0 ∧ b.endVertexVarName = "" then
    some "either end vertex label or end vertex variable name must be specified"
  else none

/-- `EdgeQueryBuilder.buildEdgeQueryFragment`: renders the relationship
fragment and its bound variable; `none` models the runtime panic of
`strings.ToLower(eqb.labels[0])[0:2]` (indexing an empty label slice or
slicing a too-short label). -/
def EdgeQueryBuilder.buildEdgeQueryFragment (b : EdgeQueryBuilder) :
    Option (String × String) :=
  match b.labels with
  | [] => none
  | l0 :: _ =>
    let lowered := strLower l0
    if strLen lowered < 2 then none
    else
      let variableName := if b.varName ≠ "" then b.varName else strTake lowered 2
      let edgeSelector := buildSelector b.selector
      let edgeLabelSelector := strConcat (b.labels.map fun label => ":" ++ label)
      some (variableName ++ edgeLabelSelector ++ edgeSelector, variableName)

/-- `EdgeQueryBuilder.buildVertexQueryFragment`: renders one endpoint's
node fragment and its bound variable.  The variable starts as the empty
string, is derived from the first label when labels are present (a
too-short first label panics, modelled as `none`), and is then overridden
by an explicit name. -/
def buildVertexQueryFragment (vertexVarName : String) (vertexlabels : List String)
    (vertexSelector : KVMap) : Option (String × String) :=
  let derived? : Option String :=
    match vertexlabels with
    | [] => some ""
    | l0 :: _ =>
      let lowered := strLower l0
      if strLen lowered < 2 then none else some (strTake lowered 2)
  match derived? with
  | none => none
  | some derived =>
    let variableName := if vertexVarName ≠ "" then vertexVarName else derived
    let selector := buildSelector vertexSelector
    let labelSelectors := strConcat (vertexlabels.map fun label => ":" ++ label)
    some ("(" ++ variableName ++ labelSelectors ++ selector ++ ")", variableName)

/-- `EdgeQueryBuilder.Build`: validation, then the three fragments, the
combined filter map (a Go map literal keyed by the three bound variables,
where a repeated key keeps only the later entry), the fetch-mode-dependent
return fragment, and the final assembly. -/
def EdgeQueryBuilder.build (b : EdgeQueryBuilder) : BuildResult :=
  match b.validate with
  | some msg => BuildResult.err msg
  | none =>
    let operation := if b.queryMode = QueryMode.write then "MERGE" else "MATCH"
    match buildVertexQueryFragment b.startVertexVarName b.startVertexLabels b.startVertexSelector with
    | none => BuildResult.crash
    | some (startVertexQueryFragment, startVertexVarName) =>
      match buildVertexQueryFragment b.endVertexVarName b.endVertexLabels b.endVertexSelector with
      | none => BuildResult.crash
      | some (endVertexQueryFragment, endVertexVarName) =>
        match b.buildEdgeQueryFragment with
        | none => BuildResult.crash
        | some (edgeQueryFragment, edgeVarName) =>
          let allFilters := goMapOfList
            [(startVertexVarName, b.startVertexFilters),
             (endVertexVarName, b.endVertexFilters),
             (edgeVarName, b.filters)]
          let filters := buildMultiFilters allFilters
          let returnFragment :=
            if b.edgeFetchMode = EdgeFetchMode.edgeWithCompleteVertex then
              "return " ++ startVertexVarName ++ ", " ++ edgeVarName ++ ", " ++ endVertexVarName
            else "return " ++ edgeVarName
          BuildResult.ok
            (operation ++
              (" " ++ startVertexQueryFragment ++ "-[" ++ edgeQueryFragment ++ "]-" ++
                endVertexQueryFragment ++ " " ++ filters ++ " ") ++ returnFragment)

/-!  ## `omg`: graph objects and the generic store's `PersistEdge`  -/

/-- `omg.GraphObjectType` (`Vertex`, `Edge`). -/
inductive GraphObjectType where
  | vertex
  | edge
deriving DecidableEq, Repr

/-- A value implementing the `omg.GraphObject` interface: a label and a
vertex-or-edge kind discriminator. -/
structure GraphObject where
  label : String
  gtype : GraphObjectType
deriving DecidableEq, Repr

/-- `omg.VertexRelation`: three polymorphic graph-object handles, each of
which may be the nil interface value. -/
structure VertexRelation where
  sourceVertex : Option GraphObject := none
  relationship : Option GraphObject := none
  destinationVertex : Option GraphObject := none
deriving DecidableEq, Repr

/-- Outcome of `GenericStore.PersistEdge` up to the point where control
would reach the mapper and the connection (collaborators outside this
model): a returned error, a runtime panic from calling a method on a nil
interface, or passing all checks. -/
inductive PersistEdgeOutcome where
  | err (msg : String)
  | crash
  | proceeds
deriving DecidableEq, Repr

/-- The validation prefix of `GenericStore.PersistEdge` (`omg` store).
After the three nil checks, the Go code evaluates
`edge.SourceVertex.GetType() != Vertex || edge.DestinationVertex.GetType() != Vertex`
with short-circuiting, then `edge.Relationship.GetType() != Edge`; a
method call through a nil `GraphObject` interface panics (`crash`). -/
def persistEdgeCheck (edge : VertexRelation) : PersistEdgeOutcome :=
  if edge.sourceVertex.isNone then PersistEdgeOutcome.err "source vertex cannot be nil"
  else if edge.sourceVertex.isNone && edge.destinationVertex.isNone then
    PersistEdgeOutcome.err "source vertex and destination vertex cannot be nil"
  else if edge.sourceVertex.isSome && edge.destinationVertex.isSome &&
      edge.relationship.isNone then
    PersistEdgeOutcome.err "edge cannot be nil when source and destination vertices are specified"
  else
    match edge.sourceVertex with
    | none => PersistEdgeOutcome.crash
    | some src =>
      if src.gtype ≠ GraphObjectType.vertex then
        PersistEdgeOutcome.err "the type of source or destination vertex must be Vertex"
      else
        match edge.destinationVertex with
        | none => PersistEdgeOutcome.crash
        | some dst =>
          if dst.gtype ≠ GraphObjectType.vertex then
            PersistEdgeOutcome.err "the type of source or destination vertex must be Vertex"
          else
            match edge.relationship with
            | none => PersistEdgeOutcome.crash
            | some rel =>
              if rel.gtype ≠ GraphObjectType.edge then
                PersistEdgeOutcome.err "the type of relationship must be Edge"
              else PersistEdgeOutcome.proceeds

/-!  ## `omg/mapper.go`: the reflection mapper  -/

/-- The static type of a struct field in the flat structs the mapper
handles. -/
inductive GoTy where
  | tyStr
  | tyInt
  | tyBool
deriving DecidableEq, Repr

/-- The dynamic type of a `GoValue`. -/
def valueTy : GoValue → GoTy
  | GoValue.str _ => GoTy.tyStr
  | GoValue.int _ => GoTy.tyInt
  | GoValue.bool _ => GoTy.tyBool

/-- The Go zero value of a type. -/
def zeroOf : GoTy → GoValue
  | GoTy.tyStr => GoValue.str ""
  | GoTy.tyInt => GoValue.int 0
  | GoTy.tyBool => GoValue.bool false

/-- One field of a flat struct: declared name, the value of the `ogm` key
in its field tag (the empty string when the tag is absent), and its
runtime value. -/
structure StructField where
  name : String
  tag : String
  value : GoValue
deriving DecidableEq, Repr

/-- `core.Vertex` as produced by the mapper: labels and a property map
(the identifier stays nil throughout the mapping path). -/
structure Vertex where
  labels : List String
  properties : KVMap
deriving DecidableEq

/-- One iteration of `performMap`'s loop: the property key is the `ogm`
tag when present and the field name otherwise. -/
def mapStep (props : KVMap) (f : StructField) : KVMap :=
  let key := if f.tag ≠ "" then f.tag else f.name
  goMapAssign props key f.value

/-- `ReflectionMapper.performMap`: each field contributes one property
whose key is the `ogm` tag when present and the field name otherwise. -/
def performMap (fields : List StructField) : KVMap :=
  fields.foldl mapStep []

/-- `ReflectionMapper.ToVertex` on a struct value: the supplied labels, or
the struct's type name when none are given, plus the mapped properties. -/
def toVertex (fields : List StructField) (typeName : String) (labels : List String) :
    Vertex :=
  { labels := if labels.length > 0 then labels else [typeName],
    properties := performMap fields }

/-- One iteration of the `fieldTagMapping` accumulation inside
`performDecode`: a tagged field is indexed tag-to-name. -/
def tagStep (m : List (String × String)) (f : StructField) : List (String × String) :=
  if f.tag ≠ "" then goMapAssign m f.tag f.name else m

/-- The `fieldTagMapping` map built by `ReflectionMapper.performDecode`:
tag value to field name, for tagged fields in declaration order. -/
def fieldTagMapping (fields : List StructField) : List (String × String) :=
  fields.foldl tagStep []

/-- One iteration of the `fieldMappingByName` accumulation inside
`performDecode`: the field's lower-cased, upper-cased and exact name are
indexed in that order. -/
def byNameStep (m : List (String × String)) (f : StructField) : List (String × String) :=
  let m := goMapAssign m (strLower f.name) f.name
  let m := goMapAssign m (strUpper f.name) f.name
  goMapAssign m f.name f.name

/-- The `fieldMappingByName` map built by `ReflectionMapper.performDecode`:
for each field, its lower-cased, upper-cased and exact name all map to the
field (represented here by its name, the only component `performDecode`
reads), inserted in that order. -/
def fieldMappingByName (fields : List StructField) : List (String × String) :=
  fields.foldl byNameStep []

/-- The key-translation loop of `ReflectionMapper.performDecode`: each
incoming property key is resolved first through `fieldMappingByName`, then
through `fieldTagMapping` (an unmatched key is a hard error; a tag whose
field name is missing from the name index reads Go's zero `StructField`,
whose name is the empty string). -/
def buildMapToDecode (byName tagMap : List (String × String)) :
    List (String × GoValue) → List (String × GoValue) →
    Except String (List (String × GoValue))
  | [], acc => Except.ok acc
  | (k, v) :: rest, acc =>
    match goMapGet? byName k with
    | some fieldName => buildMapToDecode byName tagMap rest (goMapAssign acc fieldName v)
    | none =>
      match goMapGet? tagMap k with
      | none => Except.error ("unknown field " ++ k)
      | some originalFieldName =>
        let fieldName := (goMapGet? byName originalFieldName).getD ""
        buildMapToDecode byName tagMap rest (goMapAssign acc fieldName v)

/-- Modelled from the spec: the external `mapstructure.Decode` call that
ends `performDecode`.  The translated map's keys are exact field names, so
the library's name matching reduces to: each destination field takes the
map entry bearing its name when present (a dynamic/static type mismatch is
a decode error) and keeps its current value otherwise. -/
def decodeStruct (m : List (String × GoValue)) :
    List StructField → Except String (List StructField)
  | [] => Except.ok []
  | f :: rest =>
    match goMapGet? m f.name with
    | none => (decodeStruct m rest).map (fun t => f :: t)
    | some v =>
      if valueTy v = valueTy f.value then
        (decodeStruct m rest).map (fun t => { f with value := v } :: t)
      else Except.error ("cannot decode value into field " ++ f.name)

/-- `ReflectionMapper.performDecode`: build the two indices, translate the
property keys, then decode into the destination struct. -/
def performDecode (properties : KVMap) (fields : List StructField) :
    Except String (List StructField) :=
  match buildMapToDecode (fieldMappingByName fields) (fieldTagMapping fields)
      (properties : List (String × GoValue)) [] with
  | Except.error e => Except.error e
  | Except.ok m => decodeStruct m fields

/-- `ReflectionMapper.FromVertex` into a (non-nil) pointer to a struct:
the pointer-kind checks pass and the work is `performDecode` on the
vertex's properties. -/
def fromVertex (v : Vertex) (fields : List StructField) :
    Except String (List StructField) :=
  performDecode v.properties fields

/-- A zero-valued instance of the same struct type: same field names and
tags, each value replaced by its type's zero value. -/
def zeroedFields (fields : List StructField) : List StructField :=
  fields.map fun f => { f with value := zeroOf (valueTy f.value) }

/-- `ToVertex` followed by `FromVertex` into a pointer to a zero-valued
instance of the same struct type. -/
def mapperRoundTrip (typeName : String) (labels : List String)
    (fields : List StructField) : Except String (List StructField) :=
  fromVertex (toVertex fields typeName labels) (zeroedFields fields)

/-!  ## Helper definitions for the proofs  -/

/-- First-defined alternative on options. -/
def optOr {α : Type} : Option α → Option α → Option α
  | some v, _ => some v
  | none, p => p

/-- Folding Go map assignments of a list of pairs over an accumulator. -/
def assignFold {α : Type} (l : List (String × α)) (acc : List (String × α)) :
    List (String × α) :=
  l.foldl (fun m p => goMapAssign m p.1 p.2) acc

/-- The entries `fieldMappingByName` writes, in write order. -/
def nameEntries : List StructField → List (String × String)
  | [] => []
  | f :: t =>
    (strLower f.name, f.name) :: (strUpper f.name, f.name) :: (f.name, f.name) ::
      nameEntries t

/-- The entries `fieldTagMapping` writes when every field is tagged. -/
def tagEntries (fields : List StructField) : List (String × String) :=
  fields.map fun f => (f.tag, f.name)

/-- The entries `performMap` writes when every field is tagged. -/
def propEntries (fields : List StructField) : List (String × GoValue) :=
  fields.map fun f => (f.tag, f.value)

/-- The keys under which one field is indexed by `fieldMappingByName`. -/
def nameKeys (f : StructField) : List String :=
  [strLower f.name, strUpper f.name, f.name]

/-- Two struct fields whose names and tags cannot shadow one another in
the decode indices: neither name is a case variant of the other's name,
and neither tag is a case variant of the other's name. -/
def fieldApart (f g : StructField) : Prop :=
  f.name ∉ nameKeys g ∧ g.name ∉ nameKeys f ∧ f.tag ∉ nameKeys g ∧ g.tag ∉ nameKeys f

instance (f g : StructField) : Decidable (fieldApart f g) := by
  unfold fieldApart; exact inferInstance

/-- The bound variable of the start-vertex fragment of an edge query
(`none` when rendering the fragment panics). -/
def startVar (b : EdgeQueryBuilder) : Option String :=
  Option.map Prod.snd
    (buildVertexQueryFragment b.startVertexVarName b.startVertexLabels b.startVertexSelector)

/-- The bound variable of the end-vertex fragment of an edge query. -/
def endVar (b : EdgeQueryBuilder) : Option String :=
  Option.map Prod.snd
    (buildVertexQueryFragment b.endVertexVarName b.endVertexLabels b.endVertexSelector)

/-- The bound variable of the relationship fragment of an edge query. -/
def edgeVar (b : EdgeQueryBuilder) : Option String :=
  Option.map Prod.snd b.buildEdgeQueryFragment

instance {ε α : Type} [DecidableEq ε] [DecidableEq α] : DecidableEq (Except ε α) :=
  fun a b =>
    match a, b with
    | Except.error e, Except.error e' =>
      if h : e = e' then isTrue (by rw [h]) else isFalse (fun hh => h (by injection hh))
    | Except.ok x, Except.ok y =>
      if h : x = y then isTrue (by rw [h]) else isFalse (fun hh => h (by injection hh))
    | Except.error _, Except.ok _ => isFalse (fun hh => Except.noConfusion hh)
    | Except.ok _, Except.error _ => isFalse (fun hh => Except.noConfusion hh)

/-!  ## Lemmas about the Go map model  -/

theorem goMapGet?_assign_self {α : Type} (m : List (String × α)) (k : String) (v : α) :
    goMapGet? (goMapAssign m k v) k = some v := by
  induction m with
  | nil => simp [goMapAssign, goMapGet?]
  | cons p t ih =>
    obtain ⟨k', v'⟩ := p
    by_cases h : k' = k
    · simp [goMapAssign, h, goMapGet?]
    · simp [goMapAssign, h, goMapGet?, ih]

theorem goMapGet?_assign_ne {α : Type} (m : List (String × α)) (k k' : String) (v : α)
    (h : k ≠ k') : goMapGet? (goMapAssign m k v) k' = goMapGet? m k' := by
  induction m with
  | nil => simp [goMapAssign, goMapGet?, h]
  | cons p t ih =>
    obtain ⟨k0, v0⟩ := p
    by_cases h0 : k0 = k
    · simp [goMapAssign, h0, goMapGet?, h]
    · simp [goMapAssign, h0, goMapGet?, ih]

theorem goMapGet?_append {α : Type} (a b : List (String × α)) (k : String) :
    goMapGet? (a ++ b) k = optOr (goMapGet? a k) (goMapGet? b k) := by
  induction a with
  | nil => simp [goMapGet?, optOr]
  | cons p t ih =>
    obtain ⟨k0, v0⟩ := p
    by_cases h0 : k0 = k
    · simp [goMapGet?, h0, optOr]
    · simp [goMapGet?, h0, ih]

theorem goMapGet?_assignFold {α : Type} (l : List (String × α)) :
    ∀ (acc : List (String × α)) (k : String),
    goMapGet? (assignFold l acc) k = optOr (goMapGet? l.reverse k) (goMapGet? acc k) := by
  induction l with
  | nil => intro acc k; simp [assignFold, goMapGet?, optOr]
  | cons p t ih =>
    intro acc k
    have step : assignFold (p :: t) acc = assignFold t (goMapAssign acc p.1 p.2) := rfl
    rw [step, ih]
    have hrev : (p :: t).reverse = t.reverse ++ [p] := by simp
    rw [hrev, goMapGet?_append]
    by_cases hk : p.1 = k
    · subst hk
      cases hget : goMapGet? t.reverse p.1 with
      | some v => simp [optOr, hget]
      | none =>
        simp [optOr, hget, goMapGet?, goMapGet?_assign_self]
    · cases hget : goMapGet? t.reverse k with
      | some v => simp [optOr, hget]
      | none =>
        simp [optOr, hget, goMapGet?, hk, goMapGet?_assign_ne acc p.1 k p.2 hk]

theorem goMapAssign_not_mem {α : Type} (m : List (String × α)) (k : String) (v : α)
    (h : k ∉ m.map Prod.fst) : goMapAssign m k v = m ++ [(k, v)] := by
  induction m with
  | nil => simp [goMapAssign]
  | cons p t ih =>
    obtain ⟨k0, v0⟩ := p
    simp only [List.map_cons, List.mem_cons, not_or] at h
    have h1 : k0 ≠ k := fun hh => h.1 hh.symm
    simp [goMapAssign, h1, ih h.2]

theorem assignFold_nodup {α : Type} (l : List (String × α)) :
    ∀ acc : List (String × α), (l.map Prod.fst).Nodup →
    (∀ x ∈ l.map Prod.fst, x ∉ acc.map Prod.fst) →
    assignFold l acc = acc ++ l := by
  induction l with
  | nil => intro acc _ _; simp [assignFold]
  | cons p t ih =>
    intro acc hnd hdisj
    have step : assignFold (p :: t) acc = assignFold t (goMapAssign acc p.1 p.2) := rfl
    rw [step]
    have hp : p.1 ∉ acc.map Prod.fst := hdisj p.1 (by simp)
    rw [goMapAssign_not_mem acc p.1 p.2 hp]
    simp only [List.map_cons, List.nodup_cons] at hnd
    have := ih (acc ++ [(p.1, p.2)]) hnd.2 (by
      intro x hx
      simp only [List.map_append, List.mem_append, List.map_cons, List.map_nil,
        List.mem_singleton, not_or]
      refine ⟨hdisj x (by simp [hx]), ?_⟩
      intro hxp
      exact hnd.1 (hxp ▸ hx))
    rw [this]
    simp

theorem goMapOfList_eq_self {α : Type} (l : List (String × α))
    (h : (l.map Prod.fst).Nodup) : goMapOfList l = l := by
  have := assignFold_nodup l [] h (by simp)
  simpa [assignFold, goMapOfList] using this

theorem goMapGet?_eq_some_of {α : Type} (l : List (String × α)) (k : String) (v : α)
    (hall : ∀ p ∈ l, p.1 = k → p.2 = v) (hex : ∃ p ∈ l, p.1 = k) :
    goMapGet? l k = some v := by
  induction l with
  | nil => simp at hex
  | cons p t ih =>
    obtain ⟨k0, v0⟩ := p
    by_cases h0 : k0 = k
    · have : v0 = v := hall (k0, v0) (by simp) h0
      simp [goMapGet?, h0, this]
    · simp only [goMapGet?, h0, if_false]
      apply ih
      · intro q hq; exact hall q (by simp [hq])
      · rcases hex with ⟨q, hq, hqk⟩
        rcases List.mem_cons.mp hq with hq | hq
        · exact absurd (hq ▸ hqk : (k0, v0).1 = k) h0
        · exact ⟨q, hq, hqk⟩

theorem goMapGet?_eq_none_of {α : Type} (l : List (String × α)) (k : String)
    (hall : ∀ p ∈ l, p.1 ≠ k) : goMapGet? l k = none := by
  induction l with
  | nil => simp [goMapGet?]
  | cons p t ih =>
    obtain ⟨k0, v0⟩ := p
    have h0 : k0 ≠ k := hall (k0, v0) (by simp)
    simp only [goMapGet?, h0, if_false]
    exact ih fun q hq => hall q (by simp [hq])

/-!  ## Characterization of the renderers  -/

theorem selFold_true (l : List (String × GoValue)) :
    ∀ buf : String,
    (l.foldl selStep (buf, true)).1 =
    buf ++ strConcat (l.map fun p => "," ++ renderSelectorPair p) := by
  induction l with
  | nil => intro buf; simp [strConcat, String.append_empty]
  | cons p t ih =>
    intro buf
    have hstep : selStep (buf, true) p = (buf ++ "," ++ renderSelectorPair p, true) := by
      simp [selStep]
    rw [List.foldl_cons, hstep, ih]
    simp [strConcat, String.append_assoc]

theorem filterFold_true (varName : String) (l : List (String × GoValue)) :
    ∀ buf : String,
    (l.foldl (filterStep varName) (buf, true)).1 =
    buf ++ strConcat (l.map fun p => " AND " ++ renderFilterPair varName p) := by
  induction l with
  | nil => intro buf; simp [strConcat, String.append_empty]
  | cons p t ih =>
    intro buf
    have hstep : filterStep varName (buf, true) p =
        (buf ++ " AND " ++ renderFilterPair varName p, true) := by
      simp [filterStep]
    rw [List.foldl_cons, hstep, ih]
    simp [strConcat, String.append_assoc]

theorem buildFilterConditions_characterization (varName : String) (m : KVMap) :
    buildFilterConditions varName m =
      sepJoin " AND " ((m : List (String × GoValue)).map (renderFilterPair varName)) := by
  by_cases hm : (m : List (String × GoValue)) = []
  · rw [buildFilterConditions]
    simp [hm, sepJoin]
  · obtain ⟨p, t, hpt⟩ := List.exists_cons_of_ne_nil hm
    rw [buildFilterConditions]
    rw [hpt]
    simp only [List.length_cons, if_neg (Nat.succ_ne_zero t.length)]
    have hstep : filterStep varName ("", false) p = (renderFilterPair varName p, true) := by
      simp [filterStep, String.empty_append]
    rw [List.foldl_cons, hstep, filterFold_true]
    simp only [List.map_cons, sepJoin, List.map_map, String.empty_append, Function.comp_def]

theorem mfFold_true (l : List (String × KVMap)) :
    ∀ buf : String,
    (l.foldl mfStep (buf, true)).1 =
    buf ++ strConcat
      ((l.filter fun p => ¬ ((p.2 : List (String × GoValue)).length = 0)).map
        fun p => " AND " ++ buildFilterConditions p.1 p.2) := by
  induction l with
  | nil => intro buf; simp [strConcat, String.append_empty]
  | cons p t ih =>
    intro buf
    by_cases hp : (p.2 : List (String × GoValue)).length = 0
    · have hstep : mfStep (buf, true) p = (buf, true) := by simp [mfStep, hp]
      rw [List.foldl_cons, hstep, ih, List.filter_cons_of_neg (by simpa using hp)]
    · have hstep : mfStep (buf, true) p =
          (buf ++ " AND " ++ buildFilterConditions p.1 p.2, true) := by
        simp [mfStep, hp]
      rw [List.foldl_cons, hstep, ih, List.filter_cons_of_pos (by simpa using hp)]
      simp [strConcat, String.append_assoc]

theorem mfFold_false (l : List (String × KVMap)) :
    ∀ buf : String,
    (l.foldl mfStep (buf, false)).1 =
    buf ++
      (if (l.filter fun p => ¬ ((p.2 : List (String × GoValue)).length = 0)) = [] then ""
       else " WHERE " ++ sepJoin " AND "
         (((l.filter fun p => ¬ ((p.2 : List (String × GoValue)).length = 0)).map
            fun p => buildFilterConditions p.1 p.2))) := by
  induction l with
  | nil => intro buf; simp [String.append_empty]
  | cons p t ih =>
    intro buf
    by_cases hp : (p.2 : List (String × GoValue)).length = 0
    · have hstep : mfStep (buf, false) p = (buf, false) := by simp [mfStep, hp]
      rw [List.foldl_cons, hstep, ih, List.filter_cons_of_neg (by simpa using hp)]
    · have hstep : mfStep (buf, false) p =
          (buf ++ " WHERE " ++ buildFilterConditions p.1 p.2, true) := by
        simp [mfStep, hp]
      rw [List.foldl_cons, hstep, mfFold_true, List.filter_cons_of_pos (by simpa using hp)]
      rw [if_neg (List.cons_ne_nil _ _)]
      simp only [List.map_cons, sepJoin, List.map_map, Function.comp_def]
      simp [String.append_assoc]

/-!  ## Claim theorems about the renderers  -/

/-- C7: for every property map, `buildSelector` returns the empty string
on the empty map (no braces emitted) and otherwise a brace-delimited
comma-separated list of rendered `key:value` pairs, where a string value
is wrapped in single quotes and any other value uses its default textual
rendering. -/
theorem buildSelector_characterization (m : KVMap) :
    (buildSelector m =
      if (m : List (String × GoValue)) = [] then ""
      else "\x7b" ++ sepJoin "," ((m : List (String × GoValue)).map renderSelectorPair) ++ "\x7d") ∧
    (∀ k s, renderSelectorPair (k, GoValue.str s) = k ++ ":'" ++ s ++ "'") ∧
    (∀ k v, valueTy v ≠ GoTy.tyStr → renderSelectorPair (k, v) = k ++ ": " ++ goToString v) := by
  refine ⟨?_, ?_, ?_⟩
  · by_cases hm : (m : List (String × GoValue)) = []
    · rw [buildSelector]
      simp [hm]
    · obtain ⟨p, t, hpt⟩ := List.exists_cons_of_ne_nil hm
      rw [buildSelector, if_neg hm]
      rw [hpt, if_neg (by simp [hpt] : ¬ (p :: t).length = 0)]
      have hstep : selStep ("\x7b", false) p = ("\x7b" ++ renderSelectorPair p, true) := by
        simp [selStep]
      rw [List.foldl_cons, hstep]
      show (List.foldl selStep ("\x7b" ++ renderSelectorPair p, true) t).1 ++ "\x7d" = _
      rw [selFold_true]
      simp only [List.map_cons, sepJoin, List.map_map, Function.comp_def]
      simp [String.append_assoc]
  · intro k s; rfl
  · intro k v h
    cases v with
    | str s => exact absurd rfl h
    | int n => rfl
    | bool b => rfl

/-- C8: for every mapping from bound-variable names to filter maps,
`buildMultiFilters` drops the variables whose filter map is empty, joins
the remaining per-variable conjunct groups with ` AND `, prefixes the
whole result with ` WHERE ` when at least one non-empty group exists, and
returns the empty string when none does. -/
theorem buildMultiFilters_characterization (mf : List (String × KVMap)) :
    buildMultiFilters mf =
      if (mf.filter fun p => ¬ ((p.2 : List (String × GoValue)).length = 0)) = [] then ""
      else " WHERE " ++ sepJoin " AND "
        ((mf.filter fun p => ¬ ((p.2 : List (String × GoValue)).length = 0)).map
          fun p => buildFilterConditions p.1 p.2) := by
  by_cases h0 : mf.length = 0
  · have hnil : mf = [] := List.length_eq_zero.mp h0
    rw [buildMultiFilters, if_pos h0, hnil]
    simp
  · rw [buildMultiFilters, if_neg h0, mfFold_false]
    rw [String.empty_append]

/-!  ## Claim theorems about the vertex builder  -/

/-- C2: building a vertex query in read mode with the single label
`Label1`, selector `\x7bname: TestName\x7d`, filter `\x7bage: 10\x7d` and no
explicit variable name succeeds and returns exactly
`MATCH (la:Label1\x7bname:'TestName'\x7d)  WHERE la.age=10 return la`, the
variable `la` being the first two lower-cased characters of the label. -/
theorem vertexBuild_single_label_no_variable :
    (newVertexQueryBuilder.setLabel ["Label1"] |>.setQueryMode QueryMode.read
      |>.setSelector [("name", GoValue.str "TestName")]
      |>.setFilters [("age", GoValue.int 10)]).build =
    BuildResult.ok "MATCH (la:Label1\x7bname:'TestName'\x7d)  WHERE la.age=10 return la" := by
  decide

/-- C3: for every builder state with a non-empty label list, a query
returned by `VertexQueryBuilder.build` begins with `MATCH` in read mode,
with `MERGE` in write mode when the write sub-mode is not `create`, and
with `CREATE` in write mode when it is. -/
theorem vertexBuild_operation_keyword (b : VertexQueryBuilder) (hl : b.labels ≠ [])
    (s : String) (hs : b.build = BuildResult.ok s) :
    (b.queryMode = QueryMode.read → ∃ t, s = "MATCH" ++ t) ∧
    (b.queryMode = QueryMode.write ∧ b.writeMode ≠ WriteMode.create →
      ∃ t, s = "MERGE" ++ t) ∧
    (b.queryMode = QueryMode.write ∧ b.writeMode = WriteMode.create →
      ∃ t, s = "CREATE" ++ t) := by
  obtain ⟨l0, rest, hbl⟩ : ∃ l0 rest, b.labels = l0 :: rest := by
    cases h : b.labels with
    | nil => exact absurd h hl
    | cons a t => exact ⟨a, t, rfl⟩
  have hv : b.validate = none := by
    rw [VertexQueryBuilder.validate, hbl]
    simp
  simp only [VertexQueryBuilder.build, hv, hbl] at hs
  by_cases hlen : strLen (strLower l0) < 2
  · rw [if_pos hlen] at hs
    exact absurd hs (by simp)
  · rw [if_neg hlen] at hs
    simp only [BuildResult.ok.injEq] at hs
    refine ⟨?_, ?_, ?_⟩
    · intro hm
      rw [hm] at hs
      simp only [show (QueryMode.read = QueryMode.write) = False by simp, if_false] at hs
      exact ⟨_, hs.symm⟩
    · intro hm
      rw [hm.1] at hs
      simp only [show (QueryMode.write = QueryMode.write) = True by simp, if_true] at hs
      rw [if_neg hm.2] at hs
      exact ⟨_, hs.symm⟩
    · intro hm
      rw [hm.1] at hs
      simp only [show (QueryMode.write = QueryMode.write) = True by simp, if_true] at hs
      rw [if_pos hm.2] at hs
      exact ⟨_, hs.symm⟩

/-- Witness for C3 at a concrete read-mode builder. -/
theorem vertexBuild_operation_keyword_witness :
    ∃ t, "MATCH (la:Label1\x7bname:'TestName'\x7d)  WHERE la.age=10 return la" = "MATCH" ++ t := by
  have h := vertexBuild_operation_keyword
    (newVertexQueryBuilder.setLabel ["Label1"] |>.setQueryMode QueryMode.read
      |>.setSelector [("name", GoValue.str "TestName")]
      |>.setFilters [("age", GoValue.int 10)])
    (by decide)
    "MATCH (la:Label1\x7bname:'TestName'\x7d)  WHERE la.age=10 return la"
    (by decide)
  exact h.1 rfl

/-!  ## Claim theorems about the edge builder  -/

/-- C5: for every edge-builder state whose accumulated edge-label list is
empty or has two or more labels, or in which some endpoint has neither
labels nor an explicit variable name, `Build` returns an error (the Go
return is the pair of the empty string and that error, so no partial
query text is produced). -/
theorem edgeBuild_validation_errors (b : EdgeQueryBuilder)
    (h : b.labels = [] ∨ 1 < b.labels.length ∨
      (b.startVertexLabels = [] ∧ b.startVertexVarName = "") ∨
      (b.endVertexLabels = [] ∧ b.endVertexVarName = "")) :
    ∃ msg, b.build = BuildResult.err msg := by
  have hv : ∃ msg, b.validate = some msg := by
    rw [EdgeQueryBuilder.validate]
    by_cases h0 : b.labels.length = 0
    · rw [if_pos h0]; exact ⟨_, rfl⟩
    · rw [if_neg h0]
      by_cases h1 : 1 < b.labels.length
      · rw [if_pos h1]; exact ⟨_, rfl⟩
      · rw [if_neg h1]
        rcases h with h | h | h | h
        · exact absurd (by rw [h] : b.labels.length = ([] : List String).length) h0
        · exact absurd h h1
        · rw [if_pos ⟨by rw [h.1]; rfl, h.2⟩]; exact ⟨_, rfl⟩
        · by_cases h2 : b.startVertexLabels.length = 0 ∧ b.startVertexVarName = ""
          · rw [if_pos h2]; exact ⟨_, rfl⟩
          · rw [if_neg h2, if_pos ⟨by rw [h.1]; rfl, h.2⟩]; exact ⟨_, rfl⟩
  obtain ⟨msg, hvm⟩ := hv
  refine ⟨msg, ?_⟩
  rw [EdgeQueryBuilder.build, hvm]

/-- Witness for C5 at the builder state with two edge labels used by the
repository's own test. -/
theorem edgeBuild_validation_errors_witness :
    ∃ msg, ({ labels := ["label1", "label2"] } : EdgeQueryBuilder).build =
      BuildResult.err msg :=
  edgeBuild_validation_errors { labels := ["label1", "label2"] }
    (Or.inr (Or.inl (by decide)))

/-- C6: every query the edge builder returns ends in the projection
dictated by the fetch mode: `return <edge-variable>` for ids-only, and
`return <start-variable>, <edge-variable>, <end-variable>` in that order
for complete-vertex. -/
theorem edgeBuild_return_clause (b : EdgeQueryBuilder) (s : String)
    (hs : b.build = BuildResult.ok s) :
    (b.edgeFetchMode = EdgeFetchMode.edgeWithVertexIds →
      ∃ r gv, edgeVar b = some gv ∧ s = r ++ ("return " ++ gv)) ∧
    (b.edgeFetchMode = EdgeFetchMode.edgeWithCompleteVertex →
      ∃ r sv gv ev, startVar b = some sv ∧ edgeVar b = some gv ∧ endVar b = some ev ∧
        s = r ++ ("return " ++ sv ++ ", " ++ gv ++ ", " ++ ev)) := by
  cases hval : b.validate with
  | some msg => rw [EdgeQueryBuilder.build, hval] at hs; exact absurd hs (by simp)
  | none =>
  cases hsf : buildVertexQueryFragment b.startVertexVarName b.startVertexLabels
      b.startVertexSelector with
  | none => rw [EdgeQueryBuilder.build, hval, hsf] at hs; exact absurd hs (by simp)
  | some sp =>
  obtain ⟨sfrag, sv⟩ := sp
  cases hef : buildVertexQueryFragment b.endVertexVarName b.endVertexLabels
      b.endVertexSelector with
  | none => rw [EdgeQueryBuilder.build, hval, hsf, hef] at hs; exact absurd hs (by simp)
  | some ep =>
  obtain ⟨efrag, ev⟩ := ep
  cases hgf : b.buildEdgeQueryFragment with
  | none =>
    rw [EdgeQueryBuilder.build, hval, hsf, hef, hgf] at hs; exact absurd hs (by simp)
  | some gp =>
  obtain ⟨gfrag, gv⟩ := gp
  simp only [EdgeQueryBuilder.build, hval, hsf, hef, hgf, BuildResult.ok.injEq] at hs
  constructor
  · intro hm
    rw [hm] at hs
    simp only [show (EdgeFetchMode.edgeWithVertexIds = EdgeFetchMode.edgeWithCompleteVertex) =
      False by simp, if_false] at hs
    exact ⟨_, gv, by simp [edgeVar, hgf], hs.symm⟩
  · intro hm
    rw [hm] at hs
    simp only [show (EdgeFetchMode.edgeWithCompleteVertex = EdgeFetchMode.edgeWithCompleteVertex) =
      True by simp, if_true] at hs
    exact ⟨_, sv, gv, ev, by simp [startVar, hsf], by simp [edgeVar, hgf],
      by simp [endVar, hef], hs.symm⟩

/-- Witness for C6 at the ids-only builder state of the repository's own
test. -/
theorem edgeBuild_return_clause_witness :
    ∃ r gv,
      edgeVar ({ labels := ["TestEdgeLabel"], startVertexLabels := ["StartVertex"],
                 endVertexLabels := ["EndVertex"], queryMode := QueryMode.read,
                 startVertexSelector := [("name", GoValue.str "SV1")],
                 endVertexSelector := [("name", GoValue.str "EV1")],
                 selector := [("weight", GoValue.int 10)],
                 edgeFetchMode := EdgeFetchMode.edgeWithVertexIds } : EdgeQueryBuilder) = some gv ∧
      "MATCH (st:StartVertex\x7bname:'SV1'\x7d)-[te:TestEdgeLabel\x7bweight: 10\x7d]-(en:EndVertex\x7bname:'EV1'\x7d)  return te" =
        r ++ ("return " ++ gv) := by
  have h := edgeBuild_return_clause
    ({ labels := ["TestEdgeLabel"], startVertexLabels := ["StartVertex"],
       endVertexLabels := ["EndVertex"], queryMode := QueryMode.read,
       startVertexSelector := [("name", GoValue.str "SV1")],
       endVertexSelector := [("name", GoValue.str "EV1")],
       selector := [("weight", GoValue.int 10)],
       edgeFetchMode := EdgeFetchMode.edgeWithVertexIds } : EdgeQueryBuilder)
    "MATCH (st:StartVertex\x7bname:'SV1'\x7d)-[te:TestEdgeLabel\x7bweight: 10\x7d]-(en:EndVertex\x7bname:'EV1'\x7d)  return te"
    (by decide)
  exact h.1 rfl

/-- C9: a first label shorter than two characters makes `Build` panic
while deriving the bound variable name (modelled as the `crash` outcome,
distinct from every returned error), even when an explicit variable name
was supplied: in the vertex builder, and in the edge builder for the edge
label, the start endpoint's first label and the end endpoint's first
label. -/
theorem build_short_label_panics :
    (∀ (b : VertexQueryBuilder) (l0 : String) (rest : List String),
      b.labels = l0 :: rest → strLen (strLower l0) < 2 →
      b.build = BuildResult.crash) ∧
    (∀ (b : EdgeQueryBuilder) (l0 : String) (rest : List String),
      b.validate = none → b.labels = l0 :: rest → strLen (strLower l0) < 2 →
      b.build = BuildResult.crash) ∧
    (∀ (b : EdgeQueryBuilder) (l0 : String) (rest : List String),
      b.validate = none → b.startVertexLabels = l0 :: rest → strLen (strLower l0) < 2 →
      b.build = BuildResult.crash) ∧
    (∀ (b : EdgeQueryBuilder) (l0 : String) (rest : List String),
      b.validate = none → b.endVertexLabels = l0 :: rest → strLen (strLower l0) < 2 →
      b.build = BuildResult.crash) := by
  refine ⟨?_, ?_, ?_, ?_⟩
  · intro b l0 rest hbl hlen
    have hv : b.validate = none := by
      rw [VertexQueryBuilder.validate, hbl]; simp
    simp [VertexQueryBuilder.build, hv, hbl, hlen]
  · intro b l0 rest hval hbl hlen
    have hgf : b.buildEdgeQueryFragment = none := by
      rw [EdgeQueryBuilder.buildEdgeQueryFragment, hbl]; simp [hlen]
    cases hsf : buildVertexQueryFragment b.startVertexVarName b.startVertexLabels
        b.startVertexSelector with
    | none => simp [EdgeQueryBuilder.build, hval, hsf]
    | some sp =>
      cases hef : buildVertexQueryFragment b.endVertexVarName b.endVertexLabels
          b.endVertexSelector with
      | none => simp [EdgeQueryBuilder.build, hval, hsf, hef]
      | some ep => simp [EdgeQueryBuilder.build, hval, hsf, hef, hgf]
  · intro b l0 rest hval hbl hlen
    have hsf : buildVertexQueryFragment b.startVertexVarName b.startVertexLabels
        b.startVertexSelector = none := by
      rw [hbl]; simp [buildVertexQueryFragment, hlen]
    simp [EdgeQueryBuilder.build, hval, hsf]
  · intro b l0 rest hval hbl hlen
    have hef : buildVertexQueryFragment b.endVertexVarName b.endVertexLabels
        b.endVertexSelector = none := by
      rw [hbl]; simp [buildVertexQueryFragment, hlen]
    cases hsf : buildVertexQueryFragment b.startVertexVarName b.startVertexLabels
        b.startVertexSelector with
    | none => simp [EdgeQueryBuilder.build, hval, hsf]
    | some sp => simp [EdgeQueryBuilder.build, hval, hsf, hef]

/-- Witness for C9: one-character labels crash all four derivation sites,
each with an explicit variable name supplied. -/
theorem build_short_label_panics_witness :
    ({ labels := ["A"], varName := "n" } : VertexQueryBuilder).build = BuildResult.crash ∧
    ({ labels := ["K"], varName := "r", startVertexLabels := ["Person"],
       endVertexLabels := ["Pet"] } : EdgeQueryBuilder).build = BuildResult.crash ∧
    ({ labels := ["Knows"], startVertexLabels := ["A"], startVertexVarName := "sv",
       endVertexLabels := ["Pet"] } : EdgeQueryBuilder).build = BuildResult.crash ∧
    ({ labels := ["Knows"], startVertexLabels := ["Person"], endVertexLabels := ["B"],
       endVertexVarName := "ev" } : EdgeQueryBuilder).build = BuildResult.crash := by
  refine ⟨?_, ?_, ?_, ?_⟩
  · exact build_short_label_panics.1 _ "A" [] rfl (by decide)
  · exact build_short_label_panics.2.1 _ "K" [] (by decide) rfl (by decide)
  · exact build_short_label_panics.2.2.1 _ "A" [] (by decide) rfl (by decide)
  · exact build_short_label_panics.2.2.2 _ "B" [] (by decide) rfl (by decide)

/-- C10: when the start and end binding sites of the edge builder resolve
to the same bound variable name, the combined filter map keeps only the
later entry for that key, so the built query is independent of the start
vertex's filters (they are silently dropped), while the end vertex's
conjuncts appear in the `WHERE` clause — exhibited on labels `Person` and
`Pet`, which both derive the variable `pe`. -/
theorem edge_filter_collision :
    (∀ (b : EdgeQueryBuilder) (f g : KVMap), startVar b = endVar b →
      ({ b with startVertexFilters := f } : EdgeQueryBuilder).build =
      ({ b with startVertexFilters := g } : EdgeQueryBuilder).build) ∧
    (({ labels := ["Knows"], startVertexLabels := ["Person"], endVertexLabels := ["Pet"],
        startVertexFilters := [("name", GoValue.str "SV1")],
        endVertexFilters := [("name", GoValue.str "EV1")] } : EdgeQueryBuilder).build =
      BuildResult.ok "MATCH (pe:Person)-[kn:Knows]-(pe:Pet)  WHERE pe.name='EV1' return kn") := by
  constructor
  · intro b f g hveq
    rw [EdgeQueryBuilder.build, EdgeQueryBuilder.build]
    have hv1 : ({ b with startVertexFilters := f } : EdgeQueryBuilder).validate =
        b.validate := rfl
    have hv2 : ({ b with startVertexFilters := g } : EdgeQueryBuilder).validate =
        b.validate := rfl
    rw [hv1, hv2]
    cases hval : b.validate with
    | some msg => rfl
    | none =>
      have hsf1 : buildVertexQueryFragment
          ({ b with startVertexFilters := f } : EdgeQueryBuilder).startVertexVarName
          ({ b with startVertexFilters := f } : EdgeQueryBuilder).startVertexLabels
          ({ b with startVertexFilters := f } : EdgeQueryBuilder).startVertexSelector =
          buildVertexQueryFragment b.startVertexVarName b.startVertexLabels
            b.startVertexSelector := rfl
      have hsf2 : buildVertexQueryFragment
          ({ b with startVertexFilters := g } : EdgeQueryBuilder).startVertexVarName
          ({ b with startVertexFilters := g } : EdgeQueryBuilder).startVertexLabels
          ({ b with startVertexFilters := g } : EdgeQueryBuilder).startVertexSelector =
          buildVertexQueryFragment b.startVertexVarName b.startVertexLabels
            b.startVertexSelector := rfl
      rw [hsf1, hsf2]
      cases hsf : buildVertexQueryFragment b.startVertexVarName b.startVertexLabels
          b.startVertexSelector with
      | none => rfl
      | some sp =>
        obtain ⟨sfrag, sv⟩ := sp
        have hef1 : buildVertexQueryFragment
            ({ b with startVertexFilters := f } : EdgeQueryBuilder).endVertexVarName
            ({ b with startVertexFilters := f } : EdgeQueryBuilder).endVertexLabels
            ({ b with startVertexFilters := f } : EdgeQueryBuilder).endVertexSelector =
            buildVertexQueryFragment b.endVertexVarName b.endVertexLabels
              b.endVertexSelector := rfl
        have hef2 : buildVertexQueryFragment
            ({ b with startVertexFilters := g } : EdgeQueryBuilder).endVertexVarName
            ({ b with startVertexFilters := g } : EdgeQueryBuilder).endVertexLabels
            ({ b with startVertexFilters := g } : EdgeQueryBuilder).endVertexSelector =
            buildVertexQueryFragment b.endVertexVarName b.endVertexLabels
              b.endVertexSelector := rfl
        rw [hef1, hef2]
        cases hef : buildVertexQueryFragment b.endVertexVarName b.endVertexLabels
            b.endVertexSelector with
        | none => rfl
        | some ep =>
          obtain ⟨efrag, ev⟩ := ep
          have hgf1 : ({ b with startVertexFilters := f } :
              EdgeQueryBuilder).buildEdgeQueryFragment = b.buildEdgeQueryFragment := rfl
          have hgf2 : ({ b with startVertexFilters := g } :
              EdgeQueryBuilder).buildEdgeQueryFragment = b.buildEdgeQueryFragment := rfl
          rw [hgf1, hgf2]
          cases hgf : b.buildEdgeQueryFragment with
          | none => rfl
          | some gp =>
            obtain ⟨gfrag, gv⟩ := gp
            have hsv : sv = ev := by
              have h1 : startVar b = some sv := by simp [startVar, hsf]
              have h2 : endVar b = some ev := by simp [endVar, hef]
              rw [h1, h2] at hveq
              exact Option.some.injEq _ _ ▸ hveq ▸ rfl
            subst hsv
            have hcollide : ∀ q : KVMap,
                goMapOfList [(sv, q), (sv, b.endVertexFilters), (gv, b.filters)] =
                goMapAssign [(sv, b.endVertexFilters)] gv b.filters := by
              intro q
              simp [goMapOfList, goMapAssign]
            simp only []
            rw [hcollide f, hcollide g]
  · decide

/-!  ## Claim theorems about the generic store and the mapper  -/

/-- C1 (documents the code bug): on a `VertexRelation` carrying only a
non-nil source vertex of kind `Vertex` — the isolated-vertex write the
function's own documentation allows — `PersistEdge` does not proceed past
validation: the type check `edge.DestinationVertex.GetType() != Vertex`
calls a method on the nil destination interface and panics. -/
theorem persistEdge_isolated_vertex_crashes :
    persistEdgeCheck
      { sourceVertex := some { label := "Person", gtype := GraphObjectType.vertex },
        relationship := none, destinationVertex := none } =
    PersistEdgeOutcome.crash := by decide

/-- Counterexample to C4 as stated: a flat struct whose fields are all
tagged, where the first field's tag `y` equals the lower-cased name of the
second field `Y`.  The decode path routes the property written for `X`
into `Y` by name lookup, the property written for `Y` overwrites it, and
`X` is left at its zero value, so the round trip does not reproduce the
original. -/
theorem mapperRoundTrip_not_always_exact :
    mapperRoundTrip "S" []
      [{ name := "X", tag := "y", value := GoValue.int 1 },
       { name := "Y", tag := "z", value := GoValue.int 2 }] ≠
    Except.ok
      [{ name := "X", tag := "y", value := GoValue.int 1 },
       { name := "Y", tag := "z", value := GoValue.int 2 }] := by decide

/-!  ## Lemmas for the mapper round trip  -/

theorem fieldApart_symm : Symmetric fieldApart :=
  fun _ _ h => ⟨h.2.1, h.1, h.2.2.2, h.2.2.1⟩

theorem fieldMappingByName_eq (fields : List StructField) :
    ∀ acc, fields.foldl byNameStep acc = assignFold (nameEntries fields) acc := by
  induction fields with
  | nil => intro acc; rfl
  | cons f t ih =>
    intro acc
    rw [List.foldl_cons, ih]
    rfl

theorem fieldTagMapping_eq (fields : List StructField) :
    (∀ f ∈ fields, f.tag ≠ "") →
    ∀ acc, fields.foldl tagStep acc = assignFold (tagEntries fields) acc := by
  induction fields with
  | nil => intro _ acc; rfl
  | cons f t ih =>
    intro h acc
    have hstep : tagStep acc f = goMapAssign acc f.tag f.name := by
      simp [tagStep, h f (by simp)]
    rw [List.foldl_cons, hstep, ih (fun g hg => h g (by simp [hg]))]
    rfl

theorem performMap_eq (fields : List StructField) :
    (∀ f ∈ fields, f.tag ≠ "") →
    ∀ acc, fields.foldl mapStep acc = assignFold (propEntries fields) acc := by
  induction fields with
  | nil => intro _ acc; rfl
  | cons f t ih =>
    intro h acc
    have hstep : mapStep acc f = goMapAssign acc f.tag f.value := by
      simp [mapStep, h f (by simp)]
    rw [List.foldl_cons, hstep, ih (fun g hg => h g (by simp [hg]))]
    rfl

theorem performMap_of_tagged (fields : List StructField)
    (h1 : ∀ f ∈ fields, f.tag ≠ "") (h2 : (fields.map StructField.tag).Nodup) :
    performMap fields = propEntries fields := by
  have he : performMap fields = assignFold (propEntries fields) [] :=
    performMap_eq fields h1 []
  rw [he]
  have hkeys : (propEntries fields).map Prod.fst = fields.map StructField.tag := by
    simp [propEntries, List.map_map, Function.comp_def]
  have := assignFold_nodup (propEntries fields) [] (by rw [hkeys]; exact h2) (by simp)
  simpa using this

theorem mem_nameEntries (fields : List StructField) (p : String × String) :
    p ∈ nameEntries fields ↔ ∃ g ∈ fields, p.1 ∈ nameKeys g ∧ p.2 = g.name := by
  induction fields with
  | nil => simp [nameEntries]
  | cons f t ih =>
    simp only [nameEntries, List.mem_cons, ih, nameKeys, Prod.ext_iff, List.mem_cons,
      List.mem_singleton, List.not_mem_nil]
    constructor
    · rintro (⟨h1, h2⟩ | ⟨h1, h2⟩ | ⟨h1, h2⟩ | ⟨g, hg, hk, hv⟩)
      · exact ⟨f, Or.inl rfl, by simp [nameKeys, h1], h2⟩
      · exact ⟨f, Or.inl rfl, by simp [nameKeys, h1], h2⟩
      · exact ⟨f, Or.inl rfl, by simp [nameKeys, h1], h2⟩
      · exact ⟨g, Or.inr hg, by simpa [nameKeys] using hk, hv⟩
    · rintro ⟨g, (rfl | hg), hk, hv⟩
      · simp only [nameKeys, List.mem_cons, List.mem_singleton, List.not_mem_nil,
          or_false] at hk
        rcases hk with hk | hk | hk
        · exact Or.inl ⟨hk, hv⟩
        · exact Or.inr (Or.inl ⟨hk, hv⟩)
        · exact Or.inr (Or.inr (Or.inl ⟨hk, hv⟩))
      · exact Or.inr (Or.inr (Or.inr ⟨g, hg, by simpa [nameKeys] using hk, hv⟩))

theorem byName_get_name (fields : List StructField)
    (hPair : fields.Pairwise fieldApart) (f : StructField) (hf : f ∈ fields) :
    goMapGet? (fieldMappingByName fields) f.name = some f.name := by
  have he : fieldMappingByName fields = assignFold (nameEntries fields) [] :=
    fieldMappingByName_eq fields []
  rw [he, goMapGet?_assignFold]
  have hrev : goMapGet? (nameEntries fields).reverse f.name = some f.name := by
    apply goMapGet?_eq_some_of
    · intro p hp hpk
      rw [List.mem_reverse] at hp
      obtain ⟨g, hg, hgk, hgv⟩ := (mem_nameEntries fields p).mp hp
      by_cases hfg : f = g
      · subst hfg; exact hgv
      · have := (List.Pairwise.forall fieldApart_symm hPair hf hg hfg).1
        exact absurd (hpk ▸ hgk) this
    · refine ⟨(f.name, f.name), ?_, rfl⟩
      rw [List.mem_reverse]
      exact (mem_nameEntries fields _).mpr ⟨f, hf, by simp [nameKeys], rfl⟩
  rw [hrev]
  rfl

theorem byName_get_tag (fields : List StructField)
    (hPair : fields.Pairwise fieldApart) (f : StructField) (hf : f ∈ fields) :
    goMapGet? (fieldMappingByName fields) f.tag = some f.name ∨
    goMapGet? (fieldMappingByName fields) f.tag = none := by
  have he : fieldMappingByName fields = assignFold (nameEntries fields) [] :=
    fieldMappingByName_eq fields []
  rw [he, goMapGet?_assignFold]
  by_cases hmem : f.tag ∈ nameKeys f
  · left
    have hrev : goMapGet? (nameEntries fields).reverse f.tag = some f.name := by
      apply goMapGet?_eq_some_of
      · intro p hp hpk
        rw [List.mem_reverse] at hp
        obtain ⟨g, hg, hgk, hgv⟩ := (mem_nameEntries fields p).mp hp
        by_cases hfg : f = g
        · subst hfg; exact hgv
        · have := (List.Pairwise.forall fieldApart_symm hPair hf hg hfg).2.2.1
          exact absurd (hpk ▸ hgk) this
      · refine ⟨(f.tag, f.name), ?_, rfl⟩
        rw [List.mem_reverse]
        exact (mem_nameEntries fields _).mpr ⟨f, hf, hmem, rfl⟩
    rw [hrev]
    rfl
  · right
    have hrev : goMapGet? (nameEntries fields).reverse f.tag = none := by
      apply goMapGet?_eq_none_of
      intro p hp
      rw [List.mem_reverse] at hp
      obtain ⟨g, hg, hgk, hgv⟩ := (mem_nameEntries fields p).mp hp
      by_cases hfg : f = g
      · subst hfg
        intro hpk
        exact hmem (hpk ▸ hgk)
      · have := (List.Pairwise.forall fieldApart_symm hPair hf hg hfg).2.2.1
        intro hpk
        exact this (hpk ▸ hgk)
    rw [hrev]
    rfl

theorem tagMap_get (fields : List StructField)
    (h1 : ∀ f ∈ fields, f.tag ≠ "") (h2 : (fields.map StructField.tag).Nodup)
    (f : StructField) (hf : f ∈ fields) :
    goMapGet? (fieldTagMapping fields) f.tag = some f.name := by
  have he : fieldTagMapping fields = assignFold (tagEntries fields) [] :=
    fieldTagMapping_eq fields h1 []
  rw [he, goMapGet?_assignFold]
  have hrev : goMapGet? (tagEntries fields).reverse f.tag = some f.name := by
    apply goMapGet?_eq_some_of
    · intro p hp hpk
      rw [List.mem_reverse] at hp
      obtain ⟨g, hg, hgp⟩ := List.mem_map.mp hp
      have hgt : g.tag = f.tag := by rw [← hgp] at hpk; exact hpk
      have hge : g = f := List.inj_on_of_nodup_map h2 hg hf hgt
      rw [← hgp, hge]
    · refine ⟨(f.tag, f.name), ?_, rfl⟩
      rw [List.mem_reverse]
      exact List.mem_map.mpr ⟨f, hf, rfl⟩
  rw [hrev]
  rfl

theorem buildMapToDecode_translated (fields : List StructField)
    (h1 : ∀ f ∈ fields, f.tag ≠ "") (h2 : (fields.map StructField.tag).Nodup)
    (hPair : fields.Pairwise fieldApart) :
    ∀ fs : List StructField, fs ⊆ fields → ∀ acc,
    buildMapToDecode (fieldMappingByName fields) (fieldTagMapping fields)
      (propEntries fs) acc =
    Except.ok (assignFold (fs.map fun f => (f.name, f.value)) acc) := by
  intro fs
  induction fs with
  | nil => intro _ acc; rfl
  | cons f t ih =>
    intro hsub acc
    have hf : f ∈ fields := hsub (by simp)
    have htsub : t ⊆ fields := fun x hx => hsub (by simp [hx])
    have hpe : propEntries (f :: t) = (f.tag, f.value) :: propEntries t := rfl
    rw [hpe]
    cases byName_get_tag fields hPair f hf with
    | inl hsome =>
      simp only [buildMapToDecode]
      rw [hsome]
      exact ih htsub (goMapAssign acc f.name f.value)
    | inr hnone =>
      simp only [buildMapToDecode, hnone, tagMap_get fields h1 h2 f hf,
        byName_get_name fields hPair f hf, Option.getD_some]
      exact ih htsub (goMapAssign acc f.name f.value)

theorem decodeMap_get (fields : List StructField)
    (hPair : fields.Pairwise fieldApart) (f : StructField) (hf : f ∈ fields) :
    goMapGet? (assignFold (fields.map fun g => (g.name, g.value)) []) f.name =
    some f.value := by
  rw [goMapGet?_assignFold]
  have hrev : goMapGet? (fields.map fun g => (g.name, g.value)).reverse f.name =
      some f.value := by
    apply goMapGet?_eq_some_of
    · intro p hp hpk
      rw [List.mem_reverse] at hp
      obtain ⟨g, hg, hgp⟩ := List.mem_map.mp hp
      by_cases hfg : f = g
      · subst hfg; rw [← hgp]
      · have hap := (List.Pairwise.forall fieldApart_symm hPair hf hg hfg).1
        exfalso
        apply hap
        have hgn : g.name = f.name := by rw [← hgp] at hpk; exact hpk
        exact hgn ▸ (by simp [nameKeys] : g.name ∈ nameKeys g)
    · refine ⟨(f.name, f.value), ?_, rfl⟩
      rw [List.mem_reverse]
      exact List.mem_map.mpr ⟨f, hf, rfl⟩
  rw [hrev]
  rfl

theorem valueTy_zeroOf (t : GoTy) : valueTy (zeroOf t) = t := by
  cases t <;> rfl

theorem decodeStruct_zeroed (fields : List StructField)
    (hPair : fields.Pairwise fieldApart) :
    ∀ fs : List StructField, fs ⊆ fields →
    decodeStruct (assignFold (fields.map fun g => (g.name, g.value)) [])
      (zeroedFields fs) =
    Except.ok fs := by
  intro fs
  induction fs with
  | nil => intro _; rfl
  | cons f t ih =>
    intro hsub
    have hf : f ∈ fields := hsub (by simp)
    have htsub : t ⊆ fields := fun x hx => hsub (by simp [hx])
    have hz : zeroedFields (f :: t) =
        { f with value := zeroOf (valueTy f.value) } :: zeroedFields t := rfl
    rw [hz]
    simp only [decodeStruct, decodeMap_get fields hPair f hf, valueTy_zeroOf]
    rw [if_true, ih htsub]
    rfl

theorem fieldMappingByName_zeroed (fields : List StructField) :
    fieldMappingByName (zeroedFields fields) = fieldMappingByName fields := by
  show (fields.map fun f => ({ f with value := zeroOf (valueTy f.value) } :
      StructField)).foldl byNameStep [] = fields.foldl byNameStep []
  rw [List.foldl_map]
  have hfun : (fun (x : List (String × String)) (y : StructField) =>
      byNameStep x { name := y.name, tag := y.tag, value := zeroOf (valueTy y.value) }) =
      byNameStep := by
    funext x y; rfl
  rw [hfun]

theorem fieldTagMapping_zeroed (fields : List StructField) :
    fieldTagMapping (zeroedFields fields) = fieldTagMapping fields := by
  show (fields.map fun f => ({ f with value := zeroOf (valueTy f.value) } :
      StructField)).foldl tagStep [] = fields.foldl tagStep []
  rw [List.foldl_map]
  have hfun : (fun (x : List (String × String)) (y : StructField) =>
      tagStep x { name := y.name, tag := y.tag, value := zeroOf (valueTy y.value) }) =
      tagStep := by
    funext x y; rfl
  rw [hfun]

/-- C4 amended: `ToVertex` followed by `FromVertex` into a zero-valued
instance reproduces an all-tagged flat struct exactly, provided the tags
are pairwise distinct and no field's name or tag collides with another
field's name or its upper/lower-cased variants (the indexed key set); the
counterexample shows the restriction is necessary. -/
theorem mapperRoundTrip_exact (typeName : String) (labels : List String)
    (fields : List StructField)
    (h1 : ∀ f ∈ fields, f.tag ≠ "")
    (h2 : (fields.map StructField.tag).Nodup)
    (hPair : fields.Pairwise fieldApart) :
    mapperRoundTrip typeName labels fields = Except.ok fields := by
  rw [mapperRoundTrip, fromVertex]
  rw [show (toVertex fields typeName labels).properties = performMap fields from rfl]
  rw [performDecode]
  rw [fieldMappingByName_zeroed, fieldTagMapping_zeroed]
  rw [performMap_of_tagged fields h1 h2]
  rw [buildMapToDecode_translated fields h1 h2 hPair fields (fun x hx => hx) []]
  exact decodeStruct_zeroed fields hPair fields (fun x hx => hx)

/-- Witness for the amended C4 on the repository's own `person` struct
(`Name`/`name`, `Age`/`age`, `Department`/`dept`). -/
theorem mapperRoundTrip_exact_witness :
    mapperRoundTrip "person" []
      [{ name := "Name", tag := "name", value := GoValue.str "Tom" },
       { name := "Age", tag := "age", value := GoValue.int 12 },
       { name := "Department", tag := "dept", value := GoValue.str "Dev" }] =
    Except.ok
      [{ name := "Name", tag := "name", value := GoValue.str "Tom" },
       { name := "Age", tag := "age", value := GoValue.int 12 },
       { name := "Department", tag := "dept", value := GoValue.str "Dev" }] :=
  mapperRoundTrip_exact "person" []
    [{ name := "Name", tag := "name", value := GoValue.str "Tom" },
     { name := "Age", tag := "age", value := GoValue.int 12 },
     { name := "Department", tag := "dept", value := GoValue.str "Dev" }]
    (by decide) (by decide) (by decide)

/-- Witness for C7's non-string rendering rule at a concrete
integer-valued pair. -/
theorem buildSelector_characterization_witness :
    renderSelectorPair ("age", GoValue.int 10) = "age" ++ ": " ++ goToString (GoValue.int 10) :=
  (buildSelector_characterization []).2.2 "age" (GoValue.int 10) (by decide)

/-- Witness for C10's independence statement: on the colliding
`Person`/`Pet` builder, two different start-vertex filter maps build the
same query. -/
theorem edge_filter_collision_witness :
    ({ labels := ["Knows"], startVertexLabels := ["Person"], endVertexLabels := ["Pet"],
       startVertexFilters := [("name", GoValue.str "SV1")],
       endVertexFilters := [("name", GoValue.str "EV1")] } : EdgeQueryBuilder).build =
    ({ labels := ["Knows"], startVertexLabels := ["Person"], endVertexLabels := ["Pet"],
       startVertexFilters := [("other", GoValue.int 7)],
       endVertexFilters := [("name", GoValue.str "EV1")] } : EdgeQueryBuilder).build :=
  edge_filter_collision.1
    { labels := ["Knows"], startVertexLabels := ["Person"], endVertexLabels := ["Pet"],
      endVertexFilters := [("name", GoValue.str "EV1")] }
    [("name", GoValue.str "SV1")] [("other", GoValue.int 7)] (by decide)

end GoGraph
